import Mathlib

/-!
Verification of the gfapi file-descriptor layer (`src/gfapi/fd.go`).

Shallow embedding conventions:
* cgo calls `ret, err := C.glfs_xxx(...)` deliver a signed return code and an
  errno-derived error (`nil` iff errno was zero at capture time).  Each Go
  method is embedded as a Lean function taking the primitive as an oracle
  `prim` from the issued arguments (or an explicit call record) to the pair
  `(return code : Int, err : Option Errno)`.  `none` models Go's `nil` error.
* Functions that would panic in Go (indexing `b[0]` on an empty slice) return
  `Option …`, with `none` for the panic.
* Operations whose observable behaviour includes *which* underlying call is
  issued (`Read`, `Write`, `Fgetxattr`) additionally return the list of call
  records they issue, so "exactly one call, with these arguments" is statable.
* `syscall.Dirent.Name` (a `[256]int8` array) is modelled as a `List Int` of
  int8 values; Go's `byte(c)` conversion is two's-complement reduction mod 256.
-/

namespace Gfapi

/-- Errno value carried by a non-nil cgo error. -/
abbrev Errno := Nat

/-! ### Stat record and its native conversion (fd.go lines 22-94) -/

/-- Abstract model of Go `time.Time`: an instant with `Unix()` seconds and a
`Nanosecond()` remainder in `[0, 1e9)`. -/
structure GoTime where
  sec : Int
  nsec : Nat
deriving DecidableEq, Repr

/-- `time.Time.Unix()`. -/
def GoTime.unix (t : GoTime) : Int := t.sec

/-- `time.Time.Nanosecond()`. -/
def GoTime.nanosecond (t : GoTime) : Nat := t.nsec

/-- C `struct timespec` as filled by the conversion. -/
structure Timespec where
  tv_sec : Int
  tv_nsec : Int
deriving DecidableEq, Repr

/-- Go `Stat` (fd.go lines 22-59). -/
structure Stat where
  mask : Nat
  attributes : Nat
  attributesMask : Nat
  atime : GoTime
  btime : GoTime
  ctime : GoTime
  mtime : GoTime
  ino : Nat
  size : Int
  blocks : Nat
  rdevMajor : Nat
  rdevMinor : Nat
  devMajor : Nat
  devMinor : Nat
  blkksize : Int
  nlink : Nat
  uid : Nat
  gid : Nat
  mode : Nat
deriving DecidableEq, Repr

/-- C `struct glfs_stat` (the native fixed-layout record). -/
structure GlfsStat where
  glfs_st_mask : Nat
  glfs_st_attributes : Nat
  glfs_st_attributes_mask : Nat
  glfs_st_atime : Timespec
  glfs_st_btime : Timespec
  glfs_st_ctime : Timespec
  glfs_st_mtime : Timespec
  glfs_st_ino : Nat
  glfs_st_size : Int
  glfs_st_blocks : Nat
  glfs_st_rdev_major : Nat
  glfs_st_rdev_minor : Nat
  glfs_st_dev_major : Nat
  glfs_st_dev_minor : Nat
  glfs_st_blksize : Int
  glfs_st_nlink : Nat
  glfs_st_uid : Nat
  glfs_st_gid : Nat
  glfs_st_mode : Nat
deriving DecidableEq, Repr

/-- `(*Stat).ToGlfsStat` (fd.go lines 61-94).  The nil receiver is modelled as
`none`.  The Go composite literal sets `glfs_st_atime`, `glfs_st_btime` and
`glfs_st_ctime` but does not mention `glfs_st_mtime` or `glfs_st_blksize`, so
those fields keep their zero values. -/
def ToGlfsStat : Option Stat → Option GlfsStat
  | none => none
  | some s => some
    { glfs_st_mask := s.mask
      glfs_st_attributes := s.attributes
      glfs_st_attributes_mask := s.attributesMask
      glfs_st_atime := ⟨s.atime.unix, (s.atime.nanosecond : Int)⟩
      glfs_st_btime := ⟨s.btime.unix, (s.btime.nanosecond : Int)⟩
      glfs_st_ctime := ⟨s.ctime.unix, (s.ctime.nanosecond : Int)⟩
      glfs_st_mtime := ⟨0, 0⟩
      glfs_st_ino := s.ino
      glfs_st_size := s.size
      glfs_st_blocks := s.blocks
      glfs_st_rdev_major := s.rdevMajor
      glfs_st_rdev_minor := s.rdevMinor
      glfs_st_dev_major := s.devMajor
      glfs_st_dev_minor := s.devMinor
      glfs_st_blksize := 0
      glfs_st_nlink := s.nlink
      glfs_st_uid := s.uid
      glfs_st_gid := s.gid
      glfs_st_mode := s.mode }

/-! ### Directory-entry name decoding (fd.go lines 270-281) -/

/-- Go `byte(c)` for an `int8` value `c`: two's-complement reduction mod 256. -/
def goByte (c : Int) : Nat := (c % 256).toNat

/-- Loop body of `direntName`: `for i, c := range dirent.Name` with the break
condition `c == 0 || i > 255` checked before appending `byte(c)`. -/
def direntNameAux : Nat → List Int → List Nat
  | _, [] => []
  | i, c :: cs => if c = 0 ∨ i > 255 then [] else goByte c :: direntNameAux (i + 1) cs

/-- `direntName` (fd.go lines 270-281) on the dirent's name buffer. -/
def direntName (name : List Int) : List Nat := direntNameAux 0 name

/-! ### Error-passthrough operations (fd.go lines 98-155, 205-209)

`Fchmod` and `Ftruncate` discard the return code (`_, err := …`) and return the
errno-derived error unconditionally; `Pread`, `Pwrite` and `lseek` return both
components unconditionally.  `Pread`/`Pwrite` evaluate `&b[0]` before the call,
which panics on an empty slice (modelled by `none`). -/

/-- `(*Fd).Fchmod` (fd.go lines 101-105): `_, err := C.glfs_fchmod(fd.fd,
C.mode_t(mode)); return err`. -/
def Fchmod (mode : Nat) (prim : Nat → Int × Option Errno) : Option Errno :=
  (prim mode).2

/-- `(*Fd).Ftruncate` (fd.go lines 133-137): `_, err := C.glfs_ftruncate(…);
return err` (prestat/poststat are passed through to the primitive). -/
def Ftruncate (size : Int) (prim : Int → Int × Option Errno) : Option Errno :=
  (prim size).2

/-- `(*Fd).lseek` (fd.go lines 205-209): returns `(int64(ret), err)`
unconditionally. -/
def lseek (offset : Int) (whence : Int) (prim : Int → Int → Int × Option Errno) :
    Int × Option Errno :=
  prim offset whence

/-- `(*Fd).Pread` (fd.go lines 142-146): `&b[0]` is evaluated unconditionally
(panic on empty `b`, modelled as `none`), then `(int(n), err)` is returned
unconditionally.  The primitive receives the buffer length and the offset. -/
def Pread (b : List Nat) (off : Int) (prim : Nat → Int → Int × Option Errno) :
    Option (Int × Option Errno) :=
  match b with
  | [] => none
  | _ :: _ => some (prim b.length off)

/-- `(*Fd).Pwrite` (fd.go lines 151-155): same shape as `Pread`. -/
def Pwrite (b : List Nat) (off : Int) (prim : Nat → Int → Int × Option Errno) :
    Option (Int × Option Errno) :=
  match b with
  | [] => none
  | _ :: _ => some (prim b.length off)

/-! ### Read and Write (fd.go lines 160-203) -/

/-- The data pointer handed to `glfs_read`/`glfs_write`: either the start of
the caller's buffer or the `_zero` placeholder (fd.go line 96). -/
inductive BufPtr
  | toBuf
  | zeroPlaceholder
deriving DecidableEq, Repr

/-- Call record for `glfs_read`/`glfs_write`: pointer choice, byte count and
flags. -/
structure RWCall where
  ptr : BufPtr
  count : Nat
  flags : Int
deriving DecidableEq, Repr

/-- The single call `Read` issues (fd.go lines 161-172): `p0 = &b[0]` when
`len(b) > 0`, else `p0 = &_zero`; count `len(b)`; flags 0. -/
def readCall (b : List Nat) : RWCall :=
  { ptr := if b.length > 0 then BufPtr.toBuf else BufPtr.zeroPlaceholder
    count := b.length
    flags := 0 }

/-- The single call `Write` issues (fd.go lines 185-196); textually identical
pointer selection to `Read`. -/
def writeCall (b : List Nat) : RWCall :=
  { ptr := if b.length > 0 then BufPtr.toBuf else BufPtr.zeroPlaceholder
    count := b.length
    flags := 0 }

/-- `(*Fd).Read` (fd.go lines 160-179).  Result: the returned `(n, err)` pair
(`err` set from the errno side channel only when `n < 0`), paired with the
list of calls issued. -/
def Read (b : List Nat) (prim : RWCall → Int × Option Errno) :
    (Int × Option Errno) × List RWCall :=
  let call := readCall b
  let r := prim call
  ((r.1, if r.1 < 0 then r.2 else none), [call])

/-- `(*Fd).Write` (fd.go lines 184-203): same shape as `Read`. -/
def Write (b : List Nat) (prim : RWCall → Int × Option Errno) :
    (Int × Option Errno) × List RWCall :=
  let call := writeCall b
  let r := prim call
  ((r.1, if r.1 < 0 then r.2 else none), [call])

/-! ### Zero-normalized operations (fd.go lines 211-268) -/

/-- `(*Fd).Fallocate` (fd.go lines 211-219): `if ret == 0 { err = nil }`. -/
def Fallocate (mode : Int) (offset : Int) (len : Int)
    (prim : Int → Int → Int → Int × Option Errno) : Option Errno :=
  let r := prim mode offset len
  if r.1 = 0 then none else r.2

/-- `(*Fd).Fsetxattr` (fd.go lines 242-255): `&data[0]` is evaluated
unconditionally (panic on empty `data`, modelled as `none`); then
`if ret == 0 { err = nil }`. -/
def Fsetxattr (attr : String) (data : List Nat) (flags : Int)
    (prim : String → Nat → Int → Int × Option Errno) : Option (Option Errno) :=
  match data with
  | [] => none
  | _ :: _ =>
    let r := prim attr data.length flags
    some (if r.1 = 0 then none else r.2)

/-- `(*Fd).Fremovexattr` (fd.go lines 257-268): `if ret == 0 { err = nil }`. -/
def Fremovexattr (attr : String) (prim : String → Int × Option Errno) :
    Option Errno :=
  let r := prim attr
  if r.1 = 0 then none else r.2

/-! ### Fgetxattr (fd.go lines 221-240) -/

/-- Destination pointer handed to `glfs_fgetxattr`: `nil` or the start of the
caller's `dest` slice. -/
inductive XattrDest
  | nullPtr
  | toDest
deriving DecidableEq, Repr

/-- Call record for `glfs_fgetxattr`. -/
structure GetxattrCall where
  attr : String
  dest : XattrDest
  size : Nat
deriving DecidableEq, Repr

/-- The single call `Fgetxattr` issues (fd.go lines 228-233):
`if len(dest) <= 0` the call is `(cattr, nil, 0)`, else
`(cattr, &dest[0], len(dest))`. -/
def fgetxattrCall (attr : String) (dest : List Nat) : GetxattrCall :=
  if dest.length ≤ 0 then ⟨attr, XattrDest.nullPtr, 0⟩
  else ⟨attr, XattrDest.toDest, dest.length⟩

/-- `(*Fd).Fgetxattr` (fd.go lines 221-240): returns `(int64(ret), nil)` when
`ret >= 0`, else `(int64(ret), err)`; paired with the list of calls issued. -/
def Fgetxattr (attr : String) (dest : List Nat)
    (prim : GetxattrCall → Int × Option Errno) :
    (Int × Option Errno) × List GetxattrCall :=
  let call := fgetxattrCall attr dest
  let r := prim call
  ((if r.1 ≥ 0 then (r.1, none) else (r.1, r.2)), [call])

/-! ### Directory enumeration (fd.go lines 283-336)

Each loop iteration issues one fetch to the service.  A fetch outcome is the
returned dirent pointer (`none` = null, end of stream), the errno-derived
error, and — for `glfs_readdirplus` — the stat written into the caller's
buffer.  The service's successive answers are modelled as a list of such
outcomes; if the loop would issue a call beyond the modelled answers the
embedding returns `none`.  `fileInfoFromStat` lives outside `src/` and is
abstracted as the parameter `f`. -/

/-- One `glfs_readdirplus` fetch outcome: dirent name buffer (or null), the
errno-derived error, and the stat value written into the caller's buffer. -/
structure FetchR (σ : Type) where
  dirent : Option (List Int)
  errv : Option Errno
  stat : σ
deriving DecidableEq, Repr

/-- One `glfs_readdir` fetch outcome: dirent name buffer (or null) and the
errno-derived error. -/
structure FetchN where
  dirent : Option (List Int)
  errv : Option Errno
deriving DecidableEq, Repr

/-- The `for i := 0; n == 0 || i < n; i++` loop of `(*Fd).Readdir`
(fd.go lines 295-309): an error fetch returns `(nil, err)` immediately, a null
dirent breaks, otherwise `f stat (direntName buf)` is appended. -/
def readdirLoop {σ α : Type} (f : σ → List Nat → α) (n : Int) :
    List (FetchR σ) → Int → List α → Option (List α × Option Errno)
  | [], i, files => if n = 0 ∨ i < n then none else some (files, none)
  | r :: rest, i, files =>
    if n = 0 ∨ i < n then
      match r.errv with
      | some e => some ([], some e)
      | none =>
        match r.dirent with
        | none => some (files, none)
        | some buf =>
          readdirLoop f n rest (i + 1) (files ++ [f r.stat (direntName buf)])
    else some (files, none)

/-- `(*Fd).Readdir` (fd.go lines 288-312). -/
def Readdir {σ α : Type} (f : σ → List Nat → α) (n : Int) (s : List (FetchR σ)) :
    Option (List α × Option Errno) :=
  readdirLoop f n s 0 []

/-- The loop of `(*Fd).Readdirnames` (fd.go lines 320-333): same control
structure as `readdirLoop`, entries are `direntName buf` alone. -/
def readdirnamesLoop (n : Int) :
    List FetchN → Int → List (List Nat) → Option (List (List Nat) × Option Errno)
  | [], i, names => if n = 0 ∨ i < n then none else some (names, none)
  | r :: rest, i, names =>
    if n = 0 ∨ i < n then
      match r.errv with
      | some e => some ([], some e)
      | none =>
        match r.dirent with
        | none => some (names, none)
        | some buf => readdirnamesLoop n rest (i + 1) (names ++ [direntName buf])
    else some (names, none)

/-- `(*Fd).Readdirnames` (fd.go lines 317-336). -/
def Readdirnames (n : Int) (s : List FetchN) :
    Option (List (List Nat) × Option Errno) :=
  readdirnamesLoop n s 0 []

/-- A concrete `Stat` whose four timestamps are all
`(seconds = 1700000000, nanos = 123456789)` and whose other fields are zero. -/
def statEx : Stat :=
  { mask := 0, attributes := 0, attributesMask := 0
    atime := ⟨1700000000, 123456789⟩
    btime := ⟨1700000000, 123456789⟩
    ctime := ⟨1700000000, 123456789⟩
    mtime := ⟨1700000000, 123456789⟩
    ino := 0, size := 0, blocks := 0
    rdevMajor := 0, rdevMinor := 0, devMajor := 0, devMinor := 0
    blkksize := 0, nlink := 0, uid := 0, gid := 0, mode := 0 }

/-! ## Theorems -/

/-- C10: `ToGlfsStat` applied to a nil `*Stat` returns a nil native record —
not a default-zero record and with no crash. -/
theorem claim_C10_nil_stat : ToGlfsStat none = none := rfl

/-- C2 (code-bug evidence): converting a `Stat` whose four timestamps are all
`(1700000000, 123456789)` yields a native record in which atime, btime and
ctime hold the identical seconds/nanos pair but `glfs_st_mtime` is the zero
timespec: the source's composite literal never sets `glfs_st_mtime`, so the
mtime round-trip promised by the claim fails. -/
theorem claim_C2_mtime_dropped :
    ToGlfsStat (some statEx) = some
      { glfs_st_mask := 0, glfs_st_attributes := 0, glfs_st_attributes_mask := 0
        glfs_st_atime := ⟨1700000000, 123456789⟩
        glfs_st_btime := ⟨1700000000, 123456789⟩
        glfs_st_ctime := ⟨1700000000, 123456789⟩
        glfs_st_mtime := ⟨0, 0⟩
        glfs_st_ino := 0, glfs_st_size := 0, glfs_st_blocks := 0
        glfs_st_rdev_major := 0, glfs_st_rdev_minor := 0
        glfs_st_dev_major := 0, glfs_st_dev_minor := 0
        glfs_st_blksize := 0, glfs_st_nlink := 0
        glfs_st_uid := 0, glfs_st_gid := 0, glfs_st_mode := 0 } ∧
    statEx.mtime.unix = 1700000000 ∧ statEx.mtime.nanosecond = 123456789 :=
  ⟨rfl, rfl, rfl⟩

/-- C1 (counterexample): `Fchmod` with primitive return code 0 — a
non-negative code — and stale non-nil side-channel content returns that
non-nil error, contradicting "a nil error whenever the code is
non-negative". -/
theorem claim_C1_counterexample :
    Fchmod 420 (fun _ => (0, some 5)) = some 5 ∧ (0 : Int) ≤ 0 :=
  ⟨rfl, le_refl 0⟩

/-- C1 (amended): `Fchmod`, `Ftruncate`, `lseek`, `Pread` and `Pwrite` pass
the side-channel error state captured at the call through unconditionally,
regardless of the return code's sign (for `Pread`/`Pwrite` provided the
buffer is non-empty, since the first byte is accessed before the call). -/
theorem claim_C1_amended :
    (∀ (mode : Nat) (prim : Nat → Int × Option Errno),
      Fchmod mode prim = (prim mode).2) ∧
    (∀ (size : Int) (prim : Int → Int × Option Errno),
      Ftruncate size prim = (prim size).2) ∧
    (∀ (offset whence : Int) (prim : Int → Int → Int × Option Errno),
      lseek offset whence prim = prim offset whence) ∧
    (∀ (b : List Nat) (off : Int) (prim : Nat → Int → Int × Option Errno),
      b ≠ [] → Pread b off prim = some (prim b.length off)) ∧
    (∀ (b : List Nat) (off : Int) (prim : Nat → Int → Int × Option Errno),
      b ≠ [] → Pwrite b off prim = some (prim b.length off)) := by
  refine ⟨fun _ _ => rfl, fun _ _ => rfl, fun _ _ _ => rfl, ?_, ?_⟩ <;>
  · intro b off prim hb
    cases b with
    | nil => exact absurd rfl hb
    | cons a as => rfl

/-- Witness for C1 (amended): concrete passthrough instances, including a
non-nil error alongside a positive return code. -/
theorem claim_C1_witness :
    Fchmod 7 (fun _ => (-1, some 13)) = some 13 ∧
    Pread [9] 0 (fun _ _ => (1, some 13)) = some (1, some 13) := by
  have h := claim_C1_amended
  exact ⟨h.1 7 _, h.2.2.2.1 [9] 0 _ (by simp)⟩

/-- C4: `Read` and `Write` issue exactly one underlying call for every
buffer; for a zero-length buffer the call uses the `_zero` placeholder
address and a zero count rather than being short-circuited locally. -/
theorem claim_C4_zero_length_call :
    ∀ (b : List Nat) (prim : RWCall → Int × Option Errno),
      (Read b prim).2 = [readCall b] ∧
      (Write b prim).2 = [writeCall b] ∧
      (b.length = 0 →
        readCall b = ⟨BufPtr.zeroPlaceholder, 0, 0⟩ ∧
        writeCall b = ⟨BufPtr.zeroPlaceholder, 0, 0⟩) := by
  intro b prim
  refine ⟨rfl, rfl, fun h => ?_⟩
  constructor <;> simp [readCall, writeCall, h]

/-- Witness for C4: the zero-length `Read` still issues one call, with the
placeholder pointer and count 0. -/
theorem claim_C4_witness :
    (Read [] (fun _ => (0, none))).2 = [readCall []] ∧
    readCall [] = ⟨BufPtr.zeroPlaceholder, 0, 0⟩ := by
  have h := claim_C4_zero_length_call [] (fun _ => (0, none))
  exact ⟨h.1, (h.2.2 rfl).1⟩

/-- C5: when the primitive returns exactly 0, `Fallocate`, `Fsetxattr` and
`Fremovexattr` return a nil error even if the side channel carries stale
non-nil content at that moment. -/
theorem claim_C5_zero_normalized :
    (∀ (mode offset len : Int) (prim : Int → Int → Int → Int × Option Errno),
      (prim mode offset len).1 = 0 → Fallocate mode offset len prim = none) ∧
    (∀ (attr : String) (data : List Nat) (flags : Int)
      (prim : String → Nat → Int → Int × Option Errno),
      data ≠ [] → (prim attr data.length flags).1 = 0 →
      Fsetxattr attr data flags prim = some none) ∧
    (∀ (attr : String) (prim : String → Int × Option Errno),
      (prim attr).1 = 0 → Fremovexattr attr prim = none) := by
  refine ⟨?_, ?_, ?_⟩
  · intro mode offset len prim h
    simp [Fallocate, h]
  · intro attr data flags prim hd h
    cases data with
    | nil => exact absurd rfl hd
    | cons a as =>
      simp only [Fsetxattr]
      rw [if_pos h]
  · intro attr prim h
    simp [Fremovexattr, h]

/-- Witness for C5: each operation at return code 0 with a stale non-nil
side channel yields a nil error. -/
theorem claim_C5_witness :
    Fallocate 0 0 0 (fun _ _ _ => (0, some 7)) = none ∧
    Fsetxattr "a" [1] 0 (fun _ _ _ => (0, some 7)) = some none ∧
    Fremovexattr "a" (fun _ => (0, some 7)) = none := by
  have h := claim_C5_zero_normalized
  exact ⟨h.1 0 0 0 _ rfl, h.2.1 "a" [1] 0 _ (by simp) rfl, h.2.2 "a" _ rfl⟩

/-- C7: `Read` and `Write` return a nil error whenever the primitive return
code is non-negative (including 0 = end of stream), and return the captured
side-channel error exactly when the code is negative. -/
theorem claim_C7_read_write_errors :
    ∀ (b : List Nat) (prim : RWCall → Int × Option Errno),
      (0 ≤ (prim (readCall b)).1 →
        (Read b prim).1 = ((prim (readCall b)).1, none)) ∧
      ((prim (readCall b)).1 < 0 →
        (Read b prim).1 = ((prim (readCall b)).1, (prim (readCall b)).2)) ∧
      (0 ≤ (prim (writeCall b)).1 →
        (Write b prim).1 = ((prim (writeCall b)).1, none)) ∧
      ((prim (writeCall b)).1 < 0 →
        (Write b prim).1 = ((prim (writeCall b)).1, (prim (writeCall b)).2)) := by
  intro b prim
  refine ⟨fun h => ?_, fun h => ?_, fun h => ?_, fun h => ?_⟩
  · have hn : ¬ (prim (readCall b)).1 < 0 := by omega
    simp [Read, hn]
  · simp [Read, h]
  · have hn : ¬ (prim (writeCall b)).1 < 0 := by omega
    simp [Write, hn]
  · simp [Write, h]

/-- Witness for C7: a successful read (nil error, including at 0) and a
failed read (error taken from the side channel). -/
theorem claim_C7_witness :
    (Read [1, 2] (fun _ => (0, some 9))).1 = (0, none) ∧
    (Read [1, 2] (fun _ => (-1, some 5))).1 = (-1, some 5) := by
  constructor
  · exact (claim_C7_read_write_errors [1, 2] (fun _ => (0, some 9))).1 (by decide)
  · exact (claim_C7_read_write_errors [1, 2] (fun _ => (-1, some 5))).2.1 (by decide)

/-- C8: with a non-empty buffer (resp. non-empty attribute value) the
first-byte access in `Pread`, `Pwrite` and `Fsetxattr` is in bounds and the
panic branch is unreachable; the precondition is necessary because each
operation accesses the first byte unconditionally, so the empty input hits
the panic branch. -/
theorem claim_C8_first_byte_precondition :
    ∀ (b data : List Nat) (off : Int) (attr : String) (flags : Int)
      (prim : Nat → Int → Int × Option Errno)
      (prim2 : String → Nat → Int → Int × Option Errno),
      (b ≠ [] → (Pread b off prim).isSome ∧ (Pwrite b off prim).isSome) ∧
      (data ≠ [] → (Fsetxattr attr data flags prim2).isSome) ∧
      Pread [] off prim = none ∧
      Pwrite [] off prim = none ∧
      Fsetxattr attr [] flags prim2 = none := by
  intro b data off attr flags prim prim2
  refine ⟨fun hb => ?_, fun hd => ?_, rfl, rfl, rfl⟩
  · cases b with
    | nil => exact absurd rfl hb
    | cons a as => exact ⟨rfl, rfl⟩
  · cases data with
    | nil => exact absurd rfl hd
    | cons a as => rfl

/-- Witness for C8: non-empty inputs avoid the panic branch; the empty
buffer hits it. -/
theorem claim_C8_witness :
    (Pread [1] 0 (fun _ _ => (1, none))).isSome ∧
    (Fsetxattr "a" [2] 0 (fun _ _ _ => (0, none))).isSome ∧
    Pread [] 0 (fun _ _ => (1, none)) = none := by
  have h := claim_C8_first_byte_precondition [1] [2] 0 "a" 0
    (fun _ _ => (1, none)) (fun _ _ _ => (0, none))
  exact ⟨(h.1 (by simp)).1, h.2.1 (by simp), h.2.2.1⟩

/-- C6: `Fgetxattr` issues exactly one call; with a zero-length destination
that call carries a null target and zero length (a size query); a
non-negative return yields `(value, nil)`, and a negative return yields the
same value paired with the (non-nil) side-channel error. -/
theorem claim_C6_fgetxattr :
    ∀ (attr : String) (dest : List Nat) (prim : GetxattrCall → Int × Option Errno),
      (Fgetxattr attr dest prim).2 = [fgetxattrCall attr dest] ∧
      (dest.length = 0 → fgetxattrCall attr dest = ⟨attr, XattrDest.nullPtr, 0⟩) ∧
      (0 ≤ (prim (fgetxattrCall attr dest)).1 →
        (Fgetxattr attr dest prim).1 = ((prim (fgetxattrCall attr dest)).1, none)) ∧
      (∀ e, (prim (fgetxattrCall attr dest)).1 < 0 →
        (prim (fgetxattrCall attr dest)).2 = some e →
        (Fgetxattr attr dest prim).1 = ((prim (fgetxattrCall attr dest)).1, some e)) := by
  intro attr dest prim
  refine ⟨rfl, fun h => ?_, fun h => ?_, fun e hneg he => ?_⟩
  · simp [fgetxattrCall, h]
  · simp [Fgetxattr, ge_iff_le, h]
  · have hn : ¬ 0 ≤ (prim (fgetxattrCall attr dest)).1 := by omega
    simp [Fgetxattr, ge_iff_le, hn, he]

/-- Witness for C6: the zero-length size query uses a null target; a
non-negative return gives the length with nil error; a negative return gives
the same value with the side-channel error. -/
theorem claim_C6_witness :
    fgetxattrCall "user.x" [] = ⟨"user.x", XattrDest.nullPtr, 0⟩ ∧
    (Fgetxattr "user.x" [] (fun _ => (42, none))).1 = (42, none) ∧
    (Fgetxattr "user.x" [1] (fun _ => (-1, some 61))).1 = (-1, some 61) := by
  refine ⟨(claim_C6_fgetxattr "user.x" [] (fun _ => (42, none))).2.1 rfl, ?_, ?_⟩
  · exact (claim_C6_fgetxattr "user.x" [] (fun _ => (42, none))).2.2.1 (by decide)
  · exact (claim_C6_fgetxattr "user.x" [1] (fun _ => (-1, some 61))).2.2.2 61
      (by decide) rfl

/-- Characterization of the `direntName` loop: starting at index `i ≤ 256`,
it yields the prefix of the remaining buffer up to the first null byte,
capped at the `256 - i` remaining positions, converted with `byte(c)`. -/
theorem direntNameAux_characterization (cs : List Int) :
    ∀ i : Nat, i ≤ 256 →
      direntNameAux i cs =
        ((cs.take (256 - i)).takeWhile (fun c => c != 0)).map goByte := by
  induction cs with
  | nil => intro i hi; simp [direntNameAux]
  | cons c cs ih =>
    intro i hi
    rcases lt_or_eq_of_le hi with hlt | heq
    · have h1 : 256 - i = (255 - i) + 1 := by omega
      by_cases hc : c = 0
      · subst hc
        simp [direntNameAux, h1]
      · have hguard : ¬ (c = 0 ∨ i > 255) := by
          push_neg
          exact ⟨hc, by omega⟩
        have h2 : 256 - (i + 1) = 255 - i := by omega
        have hcb : (c != 0) = true := by simpa using hc
        simp only [direntNameAux, if_neg hguard, ih (i + 1) (by omega), h2, h1,
          List.take_succ_cons]
        rw [@List.takeWhile_cons_of_pos _ (fun x => x != 0) c (List.take (255 - i) cs) hcb,
          List.map_cons]
    · have h256 : (256 : Nat) ≤ i := le_of_eq heq.symm
      have hguard : c = 0 ∨ i > 255 := Or.inr (by omega)
      have h0 : 256 - i = 0 := by omega
      simp [direntNameAux, hguard, h0]

/-- C9: `direntName` keeps the bytes before the first null, capped at 256,
never inspects bytes beyond that bound, decodes a null-padded name buffer to
exactly the name, and decodes a 256-byte buffer with no null to exactly its
256 bytes. -/
theorem claim_C9_dirent_name :
    (∀ buf : List Int,
      direntName buf = ((buf.take 256).takeWhile (fun c => c != 0)).map goByte) ∧
    (∀ buf junk : List Int, buf.length = 256 →
      direntName (buf ++ junk) = direntName buf) ∧
    direntName ([102, 105, 108, 101, 46, 116, 120, 116] ++ List.replicate 248 0)
      = [102, 105, 108, 101, 46, 116, 120, 116] ∧
    (∀ buf : List Int, buf.length = 256 → (∀ c ∈ buf, c ≠ 0) →
      direntName buf = buf.map goByte) := by
  have hchar : ∀ buf : List Int,
      direntName buf = ((buf.take 256).takeWhile (fun c => c != 0)).map goByte :=
    fun buf => by simpa using direntNameAux_characterization buf 0 (by omega)
  refine ⟨hchar, fun buf junk h => ?_, by decide, fun buf h hnz => ?_⟩
  · have e1 : (buf ++ junk).take 256 = buf := by
      rw [← h]
      exact List.take_left buf junk
    have e2 : buf.take 256 = buf := List.take_of_length_le (le_of_eq h)
    rw [hchar, hchar, e1, e2]
  · have e2 : buf.take 256 = buf := List.take_of_length_le (le_of_eq h)
    have e3 : buf.takeWhile (fun c => c != 0) = buf :=
      List.takeWhile_eq_self_iff.mpr (fun x hx => by simpa using hnz x hx)
    rw [hchar, e2, e3]

/-- Witness for C9: a 256-byte all-`A` buffer decodes to all 256 bytes, and
appending junk beyond the 256-byte bound does not change the decoding. -/
theorem claim_C9_witness :
    direntName (List.replicate 256 65 ++ [0, 99]) = direntName (List.replicate 256 65) ∧
    direntName (List.replicate 256 65) = (List.replicate 256 65).map goByte := by
  have h := claim_C9_dirent_name
  refine ⟨h.2.1 (List.replicate 256 65) [0, 99] (by simp only [List.length_replicate]),
    h.2.2.2 (List.replicate 256 65) (by simp only [List.length_replicate]) ?_⟩
  intro c hc
  have hc65 := List.eq_of_mem_replicate hc
  subst hc65
  decide

/-- Unbounded enumeration: with `n = 0` the `Readdir` loop consumes the
modelled entries up to the terminating null dirent, in order, and reports no
error, for every starting index and accumulator. -/
theorem readdirLoop_unbounded {σ α : Type} (f : σ → List Nat → α) (stE : σ) :
    ∀ (es : List (List Int × σ)) (rest : List (FetchR σ)) (i : Int) (files : List α),
      readdirLoop f 0
        (es.map (fun p => ⟨some p.1, none, p.2⟩) ++ ⟨none, none, stE⟩ :: rest) i files
      = some (files ++ es.map (fun p => f p.2 (direntName p.1)), none) := by
  intro es
  induction es with
  | nil => intro rest i files; simp [readdirLoop]
  | cons p es ih =>
    intro rest i files
    simp [readdirLoop, ih rest (i + 1) (files ++ [f p.2 (direntName p.1)])]

/-- Length bound: with `n > 0`, the `Readdir` loop adds at most `n - i`
entries on top of the accumulator. -/
theorem readdirLoop_bound {σ α : Type} (f : σ → List Nat → α) (n : Int)
    (hn : 0 < n) :
    ∀ (s : List (FetchR σ)) (i : Int) (files l : List α) (eo : Option Errno),
      readdirLoop f n s i files = some (l, eo) →
      l.length ≤ files.length + (n - i).toNat := by
  intro s
  induction s with
  | nil =>
    intro i files l eo h
    by_cases hc : n = 0 ∨ i < n
    · simp [readdirLoop, hc] at h
    · simp only [readdirLoop, if_neg hc, Option.some.injEq, Prod.mk.injEq] at h
      obtain ⟨rfl, rfl⟩ := h
      omega
  | cons r rest ih =>
    intro i files l eo h
    by_cases hc : n = 0 ∨ i < n
    · simp only [readdirLoop, if_pos hc] at h
      cases herr : r.errv with
      | some e =>
        rw [herr] at h
        simp only [Option.some.injEq, Prod.mk.injEq] at h
        obtain ⟨rfl, rfl⟩ := h
        simp
      | none =>
        rw [herr] at h
        cases hd : r.dirent with
        | none =>
          rw [hd] at h
          simp only [Option.some.injEq, Prod.mk.injEq] at h
          obtain ⟨rfl, rfl⟩ := h
          omega
        | some buf =>
          rw [hd] at h
          have hb := ih (i + 1) (files ++ [f r.stat (direntName buf)]) l eo h
          simp only [List.length_append, List.length_cons, List.length_nil] at hb
          omega
    · simp only [readdirLoop, if_neg hc, Option.some.injEq, Prod.mk.injEq] at h
      obtain ⟨rfl, rfl⟩ := h
      omega

/-- Error abort: when a fetch fails after `k` successful entry fetches that
the limit still allows, the `Readdir` loop returns `(nil, err)`, discarding
the accumulated entries. -/
theorem readdirLoop_error_aborts {σ α : Type} (f : σ → List Nat → α)
    (n : Int) (e : Errno) (d : Option (List Int)) (stE : σ) :
    ∀ (es : List (List Int × σ)) (rest : List (FetchR σ)) (i : Int) (files : List α),
      (n = 0 ∨ i + (es.length : Int) < n) →
      readdirLoop f n
        (es.map (fun p => ⟨some p.1, none, p.2⟩) ++ ⟨d, some e, stE⟩ :: rest) i files
      = some ([], some e) := by
  intro es
  induction es with
  | nil =>
    intro rest i files hcond
    have hc : n = 0 ∨ i < n := by
      simp only [List.length_nil] at hcond
      omega
    simp only [List.map_nil, List.nil_append, readdirLoop, if_pos hc]
  | cons p es ih =>
    intro rest i files hcond
    have hc : n = 0 ∨ i < n := by
      simp only [List.length_cons] at hcond
      push_cast at hcond
      omega
    have hnext : n = 0 ∨ (i + 1) + (es.length : Int) < n := by
      simp only [List.length_cons] at hcond
      push_cast at hcond ⊢
      omega
    simp only [List.map_cons, List.cons_append, readdirLoop, if_pos hc]
    exact ih rest (i + 1) (files ++ [f p.2 (direntName p.1)]) hnext

/-- Unbounded enumeration for the `Readdirnames` loop. -/
theorem readdirnamesLoop_unbounded :
    ∀ (es : List (List Int)) (rest : List FetchN) (n2 : Int) (i : Int)
      (names : List (List Nat)),
      n2 = 0 →
      readdirnamesLoop n2
        (es.map (fun b => ⟨some b, none⟩) ++ (⟨none, none⟩ : FetchN) :: rest) i names
      = some (names ++ es.map direntName, none) := by
  intro es
  induction es with
  | nil => intro rest n2 i names hn2; subst hn2; simp [readdirnamesLoop]
  | cons b es ih =>
    intro rest n2 i names hn2
    subst hn2
    simp [readdirnamesLoop, ih rest 0 (i + 1) (names ++ [direntName b]) rfl]

/-- Length bound for the `Readdirnames` loop. -/
theorem readdirnamesLoop_bound (n : Int) (hn : 0 < n) :
    ∀ (s : List FetchN) (i : Int) (names l : List (List Nat)) (eo : Option Errno),
      readdirnamesLoop n s i names = some (l, eo) →
      l.length ≤ names.length + (n - i).toNat := by
  intro s
  induction s with
  | nil =>
    intro i names l eo h
    by_cases hc : n = 0 ∨ i < n
    · simp [readdirnamesLoop, hc] at h
    · simp only [readdirnamesLoop, if_neg hc, Option.some.injEq, Prod.mk.injEq] at h
      obtain ⟨rfl, rfl⟩ := h
      omega
  | cons r rest ih =>
    intro i names l eo h
    by_cases hc : n = 0 ∨ i < n
    · simp only [readdirnamesLoop, if_pos hc] at h
      cases herr : r.errv with
      | some e =>
        rw [herr] at h
        simp only [Option.some.injEq, Prod.mk.injEq] at h
        obtain ⟨rfl, rfl⟩ := h
        simp
      | none =>
        rw [herr] at h
        cases hd : r.dirent with
        | none =>
          rw [hd] at h
          simp only [Option.some.injEq, Prod.mk.injEq] at h
          obtain ⟨rfl, rfl⟩ := h
          omega
        | some buf =>
          rw [hd] at h
          have hb := ih (i + 1) (names ++ [direntName buf]) l eo h
          simp only [List.length_append, List.length_cons, List.length_nil] at hb
          omega
    · simp only [readdirnamesLoop, if_neg hc, Option.some.injEq, Prod.mk.injEq] at h
      obtain ⟨rfl, rfl⟩ := h
      omega

/-- Error abort for the `Readdirnames` loop. -/
theorem readdirnamesLoop_error_aborts (n : Int) (e : Errno)
    (d : Option (List Int)) :
    ∀ (es : List (List Int)) (rest : List FetchN) (i : Int)
      (names : List (List Nat)),
      (n = 0 ∨ i + (es.length : Int) < n) →
      readdirnamesLoop n
        (es.map (fun b => ⟨some b, none⟩) ++ (⟨d, some e⟩ : FetchN) :: rest) i names
      = some ([], some e) := by
  intro es
  induction es with
  | nil =>
    intro rest i names hcond
    have hc : n = 0 ∨ i < n := by
      simp only [List.length_nil] at hcond
      omega
    simp only [List.map_nil, List.nil_append, readdirnamesLoop, if_pos hc]
  | cons b es ih =>
    intro rest i names hcond
    have hc : n = 0 ∨ i < n := by
      simp only [List.length_cons] at hcond
      push_cast at hcond
      omega
    have hnext : n = 0 ∨ (i + 1) + (es.length : Int) < n := by
      simp only [List.length_cons] at hcond
      push_cast at hcond ⊢
      omega
    simp only [List.map_cons, List.cons_append, readdirnamesLoop, if_pos hc]
    exact ih rest (i + 1) (names ++ [direntName b]) hnext

/-- C3: `Readdir(n)` and `Readdirnames(n)` with `n = 0` return every entry
the backing enumeration produces, in order, stopping without error at the
null dirent; with `n > 0` they return at most `n` entries; and an error from
any single fetch the limit still allows aborts the call with no entries. -/
theorem claim_C3_enumeration :
    (∀ (σ α : Type) (f : σ → List Nat → α) (stE : σ) (es : List (List Int × σ))
      (rest : List (FetchR σ)),
      Readdir f 0 (es.map (fun p => ⟨some p.1, none, p.2⟩) ++ ⟨none, none, stE⟩ :: rest)
        = some (es.map (fun p => f p.2 (direntName p.1)), none)) ∧
    (∀ (σ α : Type) (f : σ → List Nat → α) (n : Int) (s : List (FetchR σ))
      (l : List α) (eo : Option Errno),
      0 < n → Readdir f n s = some (l, eo) → l.length ≤ n.toNat) ∧
    (∀ (σ α : Type) (f : σ → List Nat → α) (n : Int) (e : Errno)
      (d : Option (List Int)) (stE : σ) (es : List (List Int × σ))
      (rest : List (FetchR σ)),
      (n = 0 ∨ (es.length : Int) < n) →
      Readdir f n (es.map (fun p => ⟨some p.1, none, p.2⟩) ++ ⟨d, some e, stE⟩ :: rest)
        = some ([], some e)) ∧
    (∀ (es : List (List Int)) (rest : List FetchN),
      Readdirnames 0 (es.map (fun b => ⟨some b, none⟩) ++ (⟨none, none⟩ : FetchN) :: rest)
        = some (es.map direntName, none)) ∧
    (∀ (n : Int) (s : List FetchN) (l : List (List Nat)) (eo : Option Errno),
      0 < n → Readdirnames n s = some (l, eo) → l.length ≤ n.toNat) ∧
    (∀ (n : Int) (e : Errno) (d : Option (List Int)) (es : List (List Int))
      (rest : List FetchN),
      (n = 0 ∨ (es.length : Int) < n) →
      Readdirnames n (es.map (fun b => ⟨some b, none⟩) ++ (⟨d, some e⟩ : FetchN) :: rest)
        = some ([], some e)) := by
  refine ⟨?_, ?_, ?_, ?_, ?_, ?_⟩
  · intro σ α f stE es rest
    simpa [Readdir] using readdirLoop_unbounded f stE es rest 0 []
  · intro σ α f n s l eo hn h
    have hb := readdirLoop_bound f n hn s 0 [] l eo h
    simp only [List.length_nil] at hb
    omega
  · intro σ α f n e d stE es rest hcond
    exact readdirLoop_error_aborts f n e d stE es rest 0 [] (by
      rcases hcond with h0 | h0
      · exact Or.inl h0
      · right; omega)
  · intro es rest
    simpa [Readdirnames] using readdirnamesLoop_unbounded es rest 0 0 [] rfl
  · intro n s l eo hn h
    have hb := readdirnamesLoop_bound n hn s 0 [] l eo h
    simp only [List.length_nil] at hb
    omega
  · intro n e d es rest hcond
    exact readdirnamesLoop_error_aborts n e d es rest 0 [] (by
      rcases hcond with h0 | h0
      · exact Or.inl h0
      · right; omega)

/-- Witness for C3: concrete unbounded enumeration, a concrete length bound
under a positive limit, and a concrete aborted-with-no-entries error case. -/
theorem claim_C3_witness :
    Readdir (fun (st : Nat) (nm : List Nat) => (nm, st)) 0
      [⟨some [97], none, 5⟩, ⟨none, none, 9⟩] = some ([([97], 5)], none) ∧
    ([[98]] : List (List Nat)).length ≤ (1 : Int).toNat ∧
    Readdirnames 2 [⟨some [98], none⟩, ⟨none, some 3⟩] = some ([], some 3) := by
  have h := claim_C3_enumeration
  refine ⟨?_, ?_, ?_⟩
  · have h1 := h.1 Nat (List Nat × Nat) (fun st nm => (nm, st)) 9 [([97], 5)] []
    simpa [direntName, direntNameAux, goByte] using h1
  · exact h.2.2.2.2.1 1 [⟨some [98], none⟩, ⟨some [99], none⟩, ⟨none, none⟩]
      [[98]] none (by omega) (by decide)
  · have h6 := h.2.2.2.2.2 2 3 none [[98]] []
    simpa using h6 (by simp)

end Gfapi
